import Mathlib

/-
Shallow embedding of the ledger core of the bike-factory management program
(`main.py`).  Python dicts with string keys and integer values are modelled as
association lists (`List (String × Int)`) preserving insertion order, exactly
as CPython dicts do; the mutating handlers become pure functions from the
ledger state to an outcome paired with the new state.  An uncaught Python
`KeyError` (indexing a missing key) is modelled by a dedicated `keyError`
outcome, with the state reflecting every in-place mutation performed before
the exception is raised.
-/

/-- A Python dict with string keys and int values, as an ordered assoc list. -/
abbrev Dict := List (String × Int)

/-- `d.get(k)` / `k in d` / `d[k]`: first-match lookup. -/
def tlookup {α : Type} : List (String × α) → String → Option α
  | [], _ => none
  | (k, v) :: rest, key => if k = key then some v else tlookup rest key

/-- `d[k] = v`: update in place if the key exists (keeping its position),
otherwise append at the end — CPython dict assignment semantics. -/
def dset : Dict → String → Int → Dict
  | [], key, v => [(key, v)]
  | (k, w) :: rest, key, v =>
    if k = key then (k, v) :: rest else (k, w) :: dset rest key v

/-- `d[k] -= a`.  Callers only reach this after a membership check has
resolved `key` to this dict, so the missing-key branch (a Python `KeyError`)
is unreachable and modelled as a no-op. -/
def dsub (d : Dict) (key : String) (amt : Int) : Dict :=
  match tlookup d key with
  | some v => dset d key (v - amt)
  | none => d

/-- An order record, mirroring the dict built by `submit_order`. -/
structure Order where
  customer_name : String
  contact_info : String
  delivery_address : String
  bike_model : String
  bike_size : String
  bike_color : String
  wheel_size : String
  gears : String
  brakes : String
  lights : String
  status : String
deriving DecidableEq

/-- The form fields of `submit_order` (everything except `status`). -/
structure OrderFields where
  customer_name : String
  contact_info : String
  delivery_address : String
  bike_model : String
  bike_size : String
  bike_color : String
  wheel_size : String
  gears : String
  brakes : String
  lights : String
deriving DecidableEq

/-- The full mutable ledger state: `INVENTORY_DATA`, `BIKE_INVENTORY`,
`PRODUCTION_STATUS` and `ORDERS`. -/
structure LedgerState where
  inventory : Dict
  bikeInventory : Dict
  production : Dict
  orders : List Order
deriving DecidableEq

/-- `BIKE_TYPE_PARTS`: the static bill of materials per bike model. -/
def BIKE_TYPE_PARTS : List (String × List (String × Int)) :=
  [("Sport",
     [("Tubular Steel", 2), ("Wheels", 2), ("Seats", 1), ("Gears", 1),
      ("Brakes", 1), ("Lights", 1)]),
   ("Tour",
     [("Tubular Steel", 3), ("Wheels", 2), ("Seats", 1), ("Gears", 2),
      ("Brakes", 2), ("Lights", 1)]),
   ("Commute",
     [("Tubular Steel", 2), ("Wheels", 2), ("Seats", 1), ("Gears", 1),
      ("Brakes", 1), ("Lights", 1)]),
   ("Electric",
     [("Tubular Steel", 2), ("Wheels", 2), ("Seats", 1), ("Gears", 1),
      ("Brakes", 1), ("Lights", 1), ("Motors", 1)]),
   ("Offroad",
     [("Tubular Steel", 3), ("Wheels", 2), ("Seats", 1), ("Gears", 2),
      ("Brakes", 2), ("Lights", 1), ("Shock Absorbers", 2)])]

/-- `STATION_REQUIREMENTS`: the static per-station requirement table. -/
def STATION_REQUIREMENTS : List (String × List (String × Int)) :=
  [("FrameWelded", [("Tubular Steel", 2)]),
   ("ForkWelded", [("Tubular Steel", 1)]),
   ("FrontForkAssembly", [("FrameWelded", 1), ("ForkWelded", 1)]),
   ("Painting", [("FrontForkAssembly", 1)]),
   ("PedalAddition", [("Painting", 1)]),
   ("WheelAddition", [("PedalAddition", 1)]),
   ("ChainGear", [("WheelAddition", 1)]),
   ("BrakeAddition", [("ChainGear", 1)]),
   ("LightAddition", [("BrakeAddition", 1)]),
   ("SeatInstallation", [("LightAddition", 1)])]

/-- The module-level initial values of the four ledgers. -/
def initialState : LedgerState :=
  { inventory :=
      [("Tubular Steel", 20), ("Wheels", 20), ("Seats", 10), ("Gears", 15),
       ("Brakes", 15), ("Lights", 10), ("Motors", 5), ("Shock Absorbers", 5)],
    bikeInventory :=
      [("Sport", 0), ("Tour", 0), ("Commute", 0), ("Electric", 0),
       ("Offroad", 0)],
    production :=
      [("FrameWelded", 0), ("ForkWelded", 0), ("FrontForkAssembly", 0),
       ("Painting", 0), ("PedalAddition", 0), ("WheelAddition", 0),
       ("ChainGear", 0), ("BrakeAddition", 0), ("LightAddition", 0),
       ("SeatInstallation", 0)],
    orders := [] }

/-- Observable outcomes of `record_station_completion`: the three
`QMessageBox.warning` returns, success, and an uncaught `KeyError`. -/
inductive StationOutcome where
  | ok
  | notEnoughInventory (station rkey : String) (required avail : Int)
  | notEnoughComponents (station rkey : String) (required avail : Int)
  | unknownRequirement (rkey : String)
  | keyError (rkey : String)
deriving DecidableEq

/-- The check loop of `record_station_completion`: each requirement key is
resolved against the parts inventory first, then against the production
counts; the loop returns at the first failing requirement. -/
def checkStationReqs (inv prod : Dict) (st : String) :
    List (String × Int) → Option StationOutcome
  | [] => none
  | (rkey, amt) :: rest =>
    match tlookup inv rkey with
    | some avail =>
      if avail < amt then some (StationOutcome.notEnoughInventory st rkey amt avail)
      else checkStationReqs inv prod st rest
    | none =>
      match tlookup prod rkey with
      | some avail =>
        if avail < amt then some (StationOutcome.notEnoughComponents st rkey amt avail)
        else checkStationReqs inv prod st rest
      | none => some (StationOutcome.unknownRequirement rkey)

/-- The deduct loop of `record_station_completion`: inventory membership
chooses the dict to deduct from, inventory first. -/
def deductStationReqs (inv prod : Dict) : List (String × Int) → Dict × Dict
  | [] => (inv, prod)
  | (rkey, amt) :: rest =>
    if (tlookup inv rkey).isSome then
      deductStationReqs (dsub inv rkey amt) prod rest
    else
      deductStationReqs inv (dsub prod rkey amt) rest

/-- `DashboardTab.record_station_completion`.  An unknown station id yields an
empty requirement set (`STATION_REQUIREMENTS.get(station_key, {})`), so the
loops do nothing and the final `PRODUCTION_STATUS[station_key] += 1` raises an
uncaught `KeyError` when the station has no production entry either. -/
def recordStationCompletion (s : LedgerState) (st : String) :
    StationOutcome × LedgerState :=
  let reqs := (tlookup STATION_REQUIREMENTS st).getD []
  match checkStationReqs s.inventory s.production st reqs with
  | some err => (err, s)
  | none =>
    let dp := deductStationReqs s.inventory s.production reqs
    match tlookup dp.2 st with
    | some c =>
      (StationOutcome.ok,
       { s with inventory := dp.1, production := dset dp.2 st (c + 1) })
    | none =>
      (StationOutcome.keyError st,
       { s with inventory := dp.1, production := dp.2 })

/-- Observable outcomes of `assemble_bike`. -/
inductive AssembleOutcome where
  | ok
  | noRecipe (model : String)
  | notEnoughParts (part : String) (needed avail : Int)
  | keyError (rkey : String)
deriving DecidableEq

/-- The parts-availability loop of `assemble_bike`
(`INVENTORY_DATA.get(part, 0)`). -/
def checkParts (inv : Dict) : List (String × Int) → Option AssembleOutcome
  | [] => none
  | (part, needed) :: rest =>
    let avail := (tlookup inv part).getD 0
    if avail < needed then some (AssembleOutcome.notEnoughParts part needed avail)
    else checkParts inv rest

/-- The deduct loop of `assemble_bike`. -/
def deductParts (inv : Dict) : List (String × Int) → Dict
  | [] => inv
  | (part, needed) :: rest => deductParts (dsub inv part needed) rest

/-- `BikeAssemblyTab.assemble_bike`.  After the parts are deducted,
`BIKE_INVENTORY[model] += 1` would raise a `KeyError` for a model missing
from the bike inventory (the parts deduction has already happened). -/
def assembleBike (s : LedgerState) (model : String) :
    AssembleOutcome × LedgerState :=
  match tlookup BIKE_TYPE_PARTS model with
  | none => (AssembleOutcome.noRecipe model, s)
  | some recipe =>
    match checkParts s.inventory recipe with
    | some err => (err, s)
    | none =>
      let inv2 := deductParts s.inventory recipe
      match tlookup s.bikeInventory model with
      | some c =>
        (AssembleOutcome.ok,
         { s with inventory := inv2,
                  bikeInventory := dset s.bikeInventory model (c + 1) })
      | none => (AssembleOutcome.keyError model, { s with inventory := inv2 })

/-- `order["status"] = "Completed"`. -/
def setCompleted (o : Order) : Order := { o with status := "Completed" }

/-- The order constructed by `submit_order`, always with status `Pending`. -/
def mkOrder (f : OrderFields) : Order :=
  { customer_name := f.customer_name, contact_info := f.contact_info,
    delivery_address := f.delivery_address, bike_model := f.bike_model,
    bike_size := f.bike_size, bike_color := f.bike_color,
    wheel_size := f.wheel_size, gears := f.gears, brakes := f.brakes,
    lights := f.lights, status := "Pending" }

/-- `OrderEntryTab.submit_order`: appends the new order unconditionally —
the handler performs no validation of any field. -/
def submitOrder (s : LedgerState) (f : OrderFields) : LedgerState :=
  { s with orders := s.orders ++ [mkOrder f] }

/-- `[o for o in ORDERS if o.get("status") == "Pending"]`. -/
def pendingOrders (orders : List Order) : List Order :=
  orders.filter (fun o => o.status == "Pending")

/-- Observable outcomes of `mark_completed`.  An out-of-range row index
falls through the `if` with no message and no mutation: `silentNoop`. -/
inductive FulfillOutcome where
  | ok
  | noBikeAvailable (model : String)
  | silentNoop
deriving DecidableEq

/-- Setting `status = "Completed"` on the `n`-th pending order mutates, in
place, the corresponding element of the full `ORDERS` list. -/
def completeNthPending : List Order → Nat → List Order
  | [], _ => []
  | o :: rest, n =>
    if o.status == "Pending" then
      match n with
      | 0 => setCompleted o :: rest
      | Nat.succ m => o :: completeNthPending rest m
    else o :: completeNthPending rest n

/-- `PendingOrdersTab.mark_completed`. -/
def markCompleted (s : LedgerState) (i : Nat) : FulfillOutcome × LedgerState :=
  match (pendingOrders s.orders)[i]? with
  | none => (FulfillOutcome.silentNoop, s)
  | some order =>
    let avail := (tlookup s.bikeInventory order.bike_model).getD 0
    if avail < 1 then (FulfillOutcome.noBikeAvailable order.bike_model, s)
    else
      (FulfillOutcome.ok,
       { s with bikeInventory := dsub s.bikeInventory order.bike_model 1,
                orders := completeNthPending s.orders i })

/-- Outcomes of `replenish_stock` (`INVENTORY_DATA[comp] += amount`). -/
inductive AddStockOutcome where
  | ok
  | keyError (comp : String)
deriving DecidableEq

/-- `InventoryTab.replenish_stock`.  The component combo box only offers keys
of the inventory dict and the spin box is clamped to `1..1000`; the operation
itself, for an arbitrary argument, would raise a `KeyError` on a missing
component. -/
def replenishStock (s : LedgerState) (comp : String) (amount : Int) :
    AddStockOutcome × LedgerState :=
  match tlookup s.inventory comp with
  | some v =>
    (AddStockOutcome.ok, { s with inventory := dset s.inventory comp (v + amount) })
  | none => (AddStockOutcome.keyError comp, s)

/-- One UI-level ledger operation. -/
inductive Op where
  | addStock (comp : String) (amount : Int)
  | completeStation (st : String)
  | assemble (model : String)
  | submit (f : OrderFields)
  | fulfill (i : Nat)

/-- The state after one operation (errors and crashes leave whatever the
handler had already written, as in the Python). -/
def applyOp (s : LedgerState) : Op → LedgerState
  | Op.addStock c n => (replenishStock s c n).2
  | Op.completeStation st => (recordStationCompletion s st).2
  | Op.assemble m => (assembleBike s m).2
  | Op.submit f => submitOrder s f
  | Op.fulfill i => (markCompleted s i).2

/-- The state after a sequence of operations. -/
def applyOps (s : LedgerState) (ops : List Op) : LedgerState :=
  ops.foldl applyOp s

/-- States reachable from the module-level initial configuration.  The
`addStock` amount is bounded by the spin box range `setRange(1, 1000)`. -/
inductive Reachable : LedgerState → Prop where
  | init : Reachable initialState
  | addStock (s : LedgerState) (comp : String) (amount : Int) :
      Reachable s → 1 ≤ amount → amount ≤ 1000 →
      Reachable (replenishStock s comp amount).2
  | completeStation (s : LedgerState) (st : String) :
      Reachable s → Reachable (recordStationCompletion s st).2
  | assemble (s : LedgerState) (model : String) :
      Reachable s → Reachable (assembleBike s model).2
  | submit (s : LedgerState) (f : OrderFields) :
      Reachable s → Reachable (submitOrder s f)
  | fulfill (s : LedgerState) (i : Nat) :
      Reachable s → Reachable (markCompleted s i).2

/-- The user database (`USER_DB`): username ↦ (password, role). -/
abbrev UserDb := List (String × String × String)

/-- Outcomes of `UserManagementTab.delete_user`. -/
inductive DeleteOutcome where
  | userNotFound (u : String)
  | cannotDeleteAdmin
  | deleted (u : String)
  | cancelled
deriving DecidableEq

/-- `del USER_DB[uname]`. -/
def removeUser : UserDb → String → UserDb
  | [], _ => []
  | (u, pr) :: rest, key => if u = key then rest else (u, pr) :: removeUser rest key

/-- `UserManagementTab.delete_user`: unknown user → warning; `"admin"` →
"Cannot Delete" warning; otherwise a confirmation dialog whose answer is the
`confirmYes` argument. -/
def deleteUser (db : UserDb) (uname : String) (confirmYes : Bool) :
    DeleteOutcome × UserDb :=
  match tlookup db uname with
  | none => (DeleteOutcome.userNotFound uname, db)
  | some _ =>
    if uname = "admin" then (DeleteOutcome.cannotDeleteAdmin, db)
    else if confirmYes then (DeleteOutcome.deleted uname, removeUser db uname)
    else (DeleteOutcome.cancelled, db)

/-- Nonnegativity of every quantity in a dict. -/
abbrev dictNonneg (d : Dict) : Prop := ∀ p ∈ d, 0 ≤ p.2

/-- Nonnegativity of every parts quantity, finished-bike quantity and station
completed-count of a ledger state. -/
abbrev stateNonneg (s : LedgerState) : Prop :=
  dictNonneg s.inventory ∧ dictNonneg s.bikeInventory ∧ dictNonneg s.production

/-- The station-completion outcomes reported to the user as errors
(`QMessageBox.warning` followed by `return`). -/
def StationOutcome.isError : StationOutcome → Bool
  | StationOutcome.notEnoughInventory _ _ _ _ => true
  | StationOutcome.notEnoughComponents _ _ _ _ => true
  | StationOutcome.unknownRequirement _ => true
  | StationOutcome.ok => false
  | StationOutcome.keyError _ => false

/-- The assembly outcomes reported to the user as errors. -/
def AssembleOutcome.isError : AssembleOutcome → Bool
  | AssembleOutcome.noRecipe _ => true
  | AssembleOutcome.notEnoughParts _ _ _ => true
  | AssembleOutcome.ok => false
  | AssembleOutcome.keyError _ => false

/-- The fulfillment outcomes reported to the user as errors. -/
def FulfillOutcome.isError : FulfillOutcome → Bool
  | FulfillOutcome.noBikeAvailable _ => true
  | FulfillOutcome.ok => false
  | FulfillOutcome.silentNoop => false

/-- How a single order may change over time: it stays the same, or a Pending
order becomes its Completed copy. -/
def orderEvolves (o o2 : Order) : Prop :=
  o2 = o ∨ (o.status = "Pending" ∧ o2 = setCompleted o)

/-- How the order book may change over time: it never shrinks, every original
position still holds the same order up to the Pending→Completed transition,
and a Completed order stays exactly as it is. -/
def bookEvolves (l l2 : List Order) : Prop :=
  l.length ≤ l2.length ∧
  (∀ (i : Nat) (o o2 : Order), l[i]? = some o → l2[i]? = some o2 → orderEvolves o o2) ∧
  (∀ (i : Nat) (o : Order), l[i]? = some o → o.status = "Completed" → l2[i]? = some o)

/-- The parts ledger of Scenario A (six part kinds, no motor parts). -/
def stateA : LedgerState :=
  { inventory :=
      [("Tubular Steel", 20), ("Wheels", 20), ("Seats", 10), ("Gears", 15),
       ("Brakes", 15), ("Lights", 10)],
    bikeInventory := [("Sport", 0)],
    production := [],
    orders := [] }

/-- A fully filled order form for a Tour bike (Scenario D). -/
def tourFields : OrderFields :=
  { customer_name := "Alice Smith", contact_info := "alice@example.com",
    delivery_address := "1 High Street", bike_model := "Tour",
    bike_size := "Medium", bike_color := "Blue", wheel_size := "29 inches",
    gears := "Standard Gears", brakes := "Disc Brakes", lights := "LED Lights" }

/-- The state of Scenario D after submitting a Tour order and assembling one
Tour bike. -/
def stateD : LedgerState :=
  (assembleBike (submitOrder initialState tourFields) "Tour").2

/-- An order form whose three required free-text fields are all empty. -/
def emptyFields : OrderFields :=
  { customer_name := "", contact_info := "", delivery_address := "",
    bike_model := "Sport", bike_size := "Small", bike_color := "Red",
    wheel_size := "26 inches", gears := "Standard Gears",
    brakes := "Disc Brakes", lights := "LED Lights" }

theorem tlookup_nonneg {d : Dict} (hd : dictNonneg d) {k : String} {v : Int}
    (h : tlookup d k = some v) : 0 ≤ v := by
  induction d with
  | nil => simp [tlookup] at h
  | cons p rest ih =>
    obtain ⟨k2, v2⟩ := p
    rw [tlookup] at h
    by_cases hk : k2 = k
    · rw [if_pos hk] at h
      cases h
      exact hd (k2, v) (List.mem_cons_self _ _)
    · rw [if_neg hk] at h
      exact ih (fun q hq => hd q (List.mem_cons_of_mem _ hq)) h

theorem dictNonneg_dset {d : Dict} (hd : dictNonneg d) {k : String} {v : Int}
    (hv : 0 ≤ v) : dictNonneg (dset d k v) := by
  induction d with
  | nil =>
    intro p hp
    simp [dset] at hp
    rw [hp]
    exact hv
  | cons q rest ih =>
    obtain ⟨k2, w⟩ := q
    rw [dset]
    by_cases hk : k2 = k
    · rw [if_pos hk]
      intro p hp
      rcases List.mem_cons.mp hp with h | h
      · rw [h]; exact hv
      · exact hd p (List.mem_cons_of_mem _ h)
    · rw [if_neg hk]
      intro p hp
      rcases List.mem_cons.mp hp with h | h
      · rw [h]; exact hd (k2, w) (List.mem_cons_self _ _)
      · exact ih (fun q hq => hd q (List.mem_cons_of_mem _ hq)) p h

theorem dictNonneg_dsub {d : Dict} (hd : dictNonneg d) {k : String} {a : Int}
    (hbound : ∀ v, tlookup d k = some v → a ≤ v) : dictNonneg (dsub d k a) := by
  unfold dsub
  rcases h : tlookup d k with _ | v
  · exact hd
  · exact dictNonneg_dset hd (sub_nonneg.mpr (hbound v h))

theorem tlookup_dset_self (d : Dict) (k : String) (v : Int) :
    tlookup (dset d k v) k = some v := by
  induction d with
  | nil => simp [dset, tlookup]
  | cons q rest ih =>
    obtain ⟨k2, w⟩ := q
    by_cases hk : k2 = k
    · simp [dset, tlookup, hk]
    · simp [dset, tlookup, hk, ih]

theorem tlookup_dset_ne {d : Dict} {k k2 : String} {v : Int} (h : ¬ k = k2) :
    tlookup (dset d k v) k2 = tlookup d k2 := by
  induction d with
  | nil => simp [dset, tlookup, h]
  | cons q rest ih =>
    obtain ⟨k0, w⟩ := q
    by_cases hk : k0 = k
    · subst hk
      simp [dset, tlookup, h]
    · simp [dset, tlookup, hk, ih]

theorem tlookup_dsub_ne {d : Dict} {k k2 : String} {a : Int} (h : ¬ k = k2) :
    tlookup (dsub d k a) k2 = tlookup d k2 := by
  unfold dsub
  rcases hl : tlookup d k with _ | v
  · rfl
  · exact tlookup_dset_ne h

theorem checkStationReqs_dsub_inv {inv prod : Dict} {st k : String} {a : Int}
    {reqs : List (String × Int)} (h : ∀ p ∈ reqs, ¬ p.1 = k) :
    checkStationReqs (dsub inv k a) prod st reqs = checkStationReqs inv prod st reqs := by
  induction reqs with
  | nil => rfl
  | cons p rest ih =>
    obtain ⟨rkey, amt⟩ := p
    have hne : ¬ k = rkey := fun e => (h (rkey, amt) (List.mem_cons_self _ _)) e.symm
    have ih2 := ih (fun q hq => h q (List.mem_cons_of_mem _ hq))
    rw [checkStationReqs, checkStationReqs, tlookup_dsub_ne hne]
    rcases tlookup inv rkey with _ | v
    · rcases tlookup prod rkey with _ | w
      · rfl
      · by_cases hw : w < amt <;> simp [hw, ih2]
    · by_cases hv : v < amt <;> simp [hv, ih2]

theorem checkStationReqs_dsub_prod {inv prod : Dict} {st k : String} {a : Int}
    {reqs : List (String × Int)} (h : ∀ p ∈ reqs, ¬ p.1 = k) :
    checkStationReqs inv (dsub prod k a) st reqs = checkStationReqs inv prod st reqs := by
  induction reqs with
  | nil => rfl
  | cons p rest ih =>
    obtain ⟨rkey, amt⟩ := p
    have hne : ¬ k = rkey := fun e => (h (rkey, amt) (List.mem_cons_self _ _)) e.symm
    have ih2 := ih (fun q hq => h q (List.mem_cons_of_mem _ hq))
    rw [checkStationReqs, checkStationReqs, tlookup_dsub_ne hne]
    rcases tlookup inv rkey with _ | v
    · rcases tlookup prod rkey with _ | w
      · rfl
      · by_cases hw : w < amt <;> simp [hw, ih2]
    · by_cases hv : v < amt <;> simp [hv, ih2]

theorem deductStationReqs_nonneg {reqs : List (String × Int)} {inv prod : Dict}
    {st : String} (hnodup : (reqs.map Prod.fst).Nodup)
    (hchk : checkStationReqs inv prod st reqs = none)
    (hinv : dictNonneg inv) (hprod : dictNonneg prod) :
    dictNonneg (deductStationReqs inv prod reqs).1 ∧
      dictNonneg (deductStationReqs inv prod reqs).2 := by
  induction reqs generalizing inv prod with
  | nil => exact ⟨hinv, hprod⟩
  | cons p rest ih =>
    obtain ⟨rkey, amt⟩ := p
    rw [List.map_cons, List.nodup_cons] at hnodup
    obtain ⟨hnotin, hnodup2⟩ := hnodup
    have hkeys : ∀ q ∈ rest, ¬ q.1 = rkey := by
      intro q hq e
      exact hnotin (e ▸ List.mem_map.mpr ⟨q, hq, rfl⟩)
    rw [checkStationReqs] at hchk
    rw [deductStationReqs]
    split at hchk
    · rename_i avail heq
      split at hchk
      · cases hchk
      · rename_i hge
        rw [heq]
        simp only [Option.isSome_some, if_true]
        refine ih hnodup2 ?_ (dictNonneg_dsub hinv ?_) hprod
        · rw [checkStationReqs_dsub_inv hkeys]
          exact hchk
        · intro u hu
          rw [heq] at hu
          cases hu
          omega
    · rename_i heq
      split at hchk
      · rename_i avail heq2
        split at hchk
        · cases hchk
        · rename_i hge
          rw [heq]
          simp only [Option.isSome_none, Bool.false_eq_true, if_false]
          refine ih hnodup2 ?_ hinv (dictNonneg_dsub hprod ?_)
          · rw [checkStationReqs_dsub_prod hkeys]
            exact hchk
          · intro u hu
            rw [heq2] at hu
            cases hu
            omega
      · cases hchk

theorem checkParts_dsub {inv : Dict} {k : String} {a : Int}
    {recipe : List (String × Int)} (h : ∀ p ∈ recipe, ¬ p.1 = k) :
    checkParts (dsub inv k a) recipe = checkParts inv recipe := by
  induction recipe with
  | nil => rfl
  | cons p rest ih =>
    obtain ⟨part, needed⟩ := p
    have hne : ¬ k = part := fun e => (h (part, needed) (List.mem_cons_self _ _)) e.symm
    have ih2 := ih (fun q hq => h q (List.mem_cons_of_mem _ hq))
    rw [checkParts, checkParts, tlookup_dsub_ne hne]
    by_cases hv : (tlookup inv part).getD 0 < needed <;> simp [hv, ih2]

theorem deductParts_nonneg {recipe : List (String × Int)} {inv : Dict}
    (hnodup : (recipe.map Prod.fst).Nodup)
    (hchk : checkParts inv recipe = none) (hinv : dictNonneg inv) :
    dictNonneg (deductParts inv recipe) := by
  induction recipe generalizing inv with
  | nil => exact hinv
  | cons p rest ih =>
    obtain ⟨part, needed⟩ := p
    rw [List.map_cons, List.nodup_cons] at hnodup
    obtain ⟨hnotin, hnodup2⟩ := hnodup
    have hkeys : ∀ q ∈ rest, ¬ q.1 = part := by
      intro q hq e
      exact hnotin (e ▸ List.mem_map.mpr ⟨q, hq, rfl⟩)
    rw [checkParts] at hchk
    rw [deductParts]
    split at hchk
    · cases hchk
    · rename_i hge
      refine ih hnodup2 ?_ (dictNonneg_dsub hinv ?_)
      · rw [checkParts_dsub hkeys]
        exact hchk
      · intro u hu
        rw [hu] at hge
        simp at hge
        omega

theorem tlookup_mem {α : Type} {t : List (String × α)} {k : String} {v : α}
    (h : tlookup t k = some v) : (k, v) ∈ t := by
  induction t with
  | nil => simp [tlookup] at h
  | cons p rest ih =>
    obtain ⟨k2, v2⟩ := p
    rw [tlookup] at h
    by_cases hk : k2 = k
    · rw [if_pos hk] at h
      cases h
      subst hk
      exact List.mem_cons_self _ _
    · rw [if_neg hk] at h
      exact List.mem_cons_of_mem _ (ih h)

theorem stationReqs_keys_nodup (st : String) :
    (((tlookup STATION_REQUIREMENTS st).getD []).map Prod.fst).Nodup := by
  rcases h : tlookup STATION_REQUIREMENTS st with _ | reqs
  · simp
  · have hm := tlookup_mem h
    have hall : ∀ p ∈ STATION_REQUIREMENTS, ((p.2.map Prod.fst)).Nodup := by decide
    simpa using hall _ hm

theorem recipe_keys_nodup {model : String} {recipe : List (String × Int)}
    (h : tlookup BIKE_TYPE_PARTS model = some recipe) :
    (recipe.map Prod.fst).Nodup := by
  have hm := tlookup_mem h
  have hall : ∀ p ∈ BIKE_TYPE_PARTS, ((p.2.map Prod.fst)).Nodup := by decide
  simpa using hall _ hm

theorem stateNonneg_recordStationCompletion {s : LedgerState} (h : stateNonneg s)
    (st : String) : stateNonneg (recordStationCompletion s st).2 := by
  obtain ⟨hi, hb, hp⟩ := h
  rcases hc : checkStationReqs s.inventory s.production st
      ((tlookup STATION_REQUIREMENTS st).getD []) with _ | e
  · have hd := deductStationReqs_nonneg (stationReqs_keys_nodup st) hc hi hp
    rcases hg : tlookup (deductStationReqs s.inventory s.production
        ((tlookup STATION_REQUIREMENTS st).getD [])).2 st with _ | c
    · simp only [recordStationCompletion, hc, hg]
      exact ⟨hd.1, hb, hd.2⟩
    · simp only [recordStationCompletion, hc, hg]
      have hc0 : 0 ≤ c := tlookup_nonneg hd.2 hg
      exact ⟨hd.1, hb, dictNonneg_dset hd.2 (by omega)⟩
  · simp only [recordStationCompletion, hc]
    exact ⟨hi, hb, hp⟩

theorem stateNonneg_assembleBike {s : LedgerState} (h : stateNonneg s)
    (model : String) : stateNonneg (assembleBike s model).2 := by
  obtain ⟨hi, hb, hp⟩ := h
  rcases hr : tlookup BIKE_TYPE_PARTS model with _ | recipe
  · simp only [assembleBike, hr]
    exact ⟨hi, hb, hp⟩
  · rcases hc : checkParts s.inventory recipe with _ | e
    · have hdn := deductParts_nonneg (recipe_keys_nodup hr) hc hi
      rcases hg : tlookup s.bikeInventory model with _ | c
      · simp only [assembleBike, hr, hc, hg]
        exact ⟨hdn, hb, hp⟩
      · simp only [assembleBike, hr, hc, hg]
        have hc0 : 0 ≤ c := tlookup_nonneg hb hg
        exact ⟨hdn, dictNonneg_dset hb (by omega), hp⟩
    · simp only [assembleBike, hr, hc]
      exact ⟨hi, hb, hp⟩

theorem stateNonneg_markCompleted {s : LedgerState} (h : stateNonneg s)
    (i : Nat) : stateNonneg (markCompleted s i).2 := by
  obtain ⟨hi, hb, hp⟩ := h
  rcases ho : (pendingOrders s.orders)[i]? with _ | order
  · simp only [markCompleted, ho]
    exact ⟨hi, hb, hp⟩
  · by_cases hv : (tlookup s.bikeInventory order.bike_model).getD 0 < 1
    · simp only [markCompleted, ho, if_pos hv]
      exact ⟨hi, hb, hp⟩
    · simp only [markCompleted, ho, if_neg hv]
      refine ⟨hi, dictNonneg_dsub hb ?_, hp⟩
      intro u hu
      rw [hu] at hv
      simp at hv
      omega

theorem stateNonneg_replenishStock {s : LedgerState} (h : stateNonneg s)
    {comp : String} {amount : Int} (ha : 0 ≤ amount) :
    stateNonneg (replenishStock s comp amount).2 := by
  obtain ⟨hi, hb, hp⟩ := h
  rcases hl : tlookup s.inventory comp with _ | v
  · simp only [replenishStock, hl]
    exact ⟨hi, hb, hp⟩
  · simp only [replenishStock, hl]
    have hv := tlookup_nonneg hi hl
    exact ⟨dictNonneg_dset hi (by omega), hb, hp⟩

theorem pending_status {l : List Order} {i : Nat} {o : Order}
    (h : (pendingOrders l)[i]? = some o) : o.status = "Pending" := by
  have hm : o ∈ pendingOrders l := List.getElem?_mem h
  have := List.of_mem_filter hm
  simpa using this

theorem completeNthPending_spec {orders : List Order} {i : Nat} {order : Order}
    (h : (pendingOrders orders)[i]? = some order) :
    ∃ j, orders[j]? = some order ∧
      completeNthPending orders i = orders.set j (setCompleted order) := by
  induction orders generalizing i with
  | nil => simp [pendingOrders] at h
  | cons o rest ih =>
    by_cases hp : o.status = "Pending"
    · rw [pendingOrders, List.filter_cons] at h
      simp only [hp] at h
      cases i with
      | zero =>
        simp only [beq_self_eq_true, if_true, List.getElem?_cons_zero] at h
        cases h
        refine ⟨0, by simp, ?_⟩
        simp [completeNthPending, hp]
      | succ m =>
        simp only [beq_self_eq_true, if_true, List.getElem?_cons_succ] at h
        obtain ⟨j, hj1, hj2⟩ := ih h
        refine ⟨j + 1, by simpa using hj1, ?_⟩
        simp [completeNthPending, hp, hj2]
    · rw [pendingOrders, List.filter_cons] at h
      have hpb : (o.status == "Pending") = false := by simpa using hp
      rw [hpb] at h
      simp only [Bool.false_eq_true, if_false] at h
      obtain ⟨j, hj1, hj2⟩ := ih h
      refine ⟨j + 1, by simpa using hj1, ?_⟩
      simp [completeNthPending, hpb, hj2]

theorem bookEvolves_refl (l : List Order) : bookEvolves l l := by
  refine ⟨le_refl _, ?_, ?_⟩
  · intro i o o2 h1 h2
    rw [h1] at h2
    cases h2
    exact Or.inl rfl
  · intro i o h1 _
    exact h1

theorem orderEvolves_trans {a b c : Order} (h1 : orderEvolves a b)
    (h2 : orderEvolves b c) : orderEvolves a c := by
  rcases h1 with rfl | ⟨hp, rfl⟩
  · exact h2
  · rcases h2 with rfl | ⟨hp2, rfl⟩
    · exact Or.inr ⟨hp, rfl⟩
    · simp [setCompleted] at hp2

theorem bookEvolves_trans {l1 l2 l3 : List Order} (h1 : bookEvolves l1 l2)
    (h2 : bookEvolves l2 l3) : bookEvolves l1 l3 := by
  obtain ⟨hl1, he1, hc1⟩ := h1
  obtain ⟨hl2, he2, hc2⟩ := h2
  refine ⟨le_trans hl1 hl2, ?_, ?_⟩
  · intro i o o2 ho ho2
    have hi : i < l1.length := (List.getElem?_eq_some_iff.mp ho).1
    have hi2 : i < l2.length := lt_of_lt_of_le hi hl1
    exact orderEvolves_trans (he1 i o l2[i] ho (List.getElem?_eq_getElem hi2))
      (he2 i l2[i] o2 (List.getElem?_eq_getElem hi2) ho2)
  · intro i o ho hs
    exact hc2 i o (hc1 i o ho hs) hs

theorem bookEvolves_append (l : List Order) (o : Order) :
    bookEvolves l (l ++ [o]) := by
  refine ⟨by simp, ?_, ?_⟩
  · intro i a b ha hb
    have hi : i < l.length := (List.getElem?_eq_some_iff.mp ha).1
    rw [List.getElem?_append_left hi] at hb
    rw [ha] at hb
    cases hb
    exact Or.inl rfl
  · intro i a ha hs
    have hi : i < l.length := (List.getElem?_eq_some_iff.mp ha).1
    rw [List.getElem?_append_left hi]
    exact ha

theorem bookEvolves_set {l : List Order} {j : Nat} {o : Order}
    (hj : l[j]? = some o) (hp : o.status = "Pending") :
    bookEvolves l (l.set j (setCompleted o)) := by
  have hjl : j < l.length := (List.getElem?_eq_some_iff.mp hj).1
  refine ⟨by simp, ?_, ?_⟩
  · intro i a b ha hb
    by_cases hij : i = j
    · subst hij
      rw [hj] at ha
      cases ha
      rw [List.getElem?_set_self hjl] at hb
      cases hb
      exact Or.inr ⟨hp, rfl⟩
    · rw [List.getElem?_set_ne (fun e => hij e.symm)] at hb
      rw [ha] at hb
      cases hb
      exact Or.inl rfl
  · intro i a ha hs
    by_cases hij : i = j
    · subst hij
      rw [hj] at ha
      cases ha
      rw [hp] at hs
      exact absurd hs (by decide)
    · rw [List.getElem?_set_ne (fun e => hij e.symm)]
      exact ha

theorem orders_replenishStock (s : LedgerState) (c : String) (n : Int) :
    (replenishStock s c n).2.orders = s.orders := by
  rcases hl : tlookup s.inventory c with _ | v <;> simp [replenishStock, hl]

theorem orders_recordStationCompletion (s : LedgerState) (st : String) :
    (recordStationCompletion s st).2.orders = s.orders := by
  rcases hc : checkStationReqs s.inventory s.production st
      ((tlookup STATION_REQUIREMENTS st).getD []) with _ | e
  · rcases hg : tlookup (deductStationReqs s.inventory s.production
        ((tlookup STATION_REQUIREMENTS st).getD [])).2 st with _ | c <;>
      simp [recordStationCompletion, hc, hg]
  · simp [recordStationCompletion, hc]

theorem orders_assembleBike (s : LedgerState) (m : String) :
    (assembleBike s m).2.orders = s.orders := by
  rcases hr : tlookup BIKE_TYPE_PARTS m with _ | recipe
  · simp [assembleBike, hr]
  · rcases hc : checkParts s.inventory recipe with _ | e
    · rcases hg : tlookup s.bikeInventory m with _ | c <;>
        simp [assembleBike, hr, hc, hg]
    · simp [assembleBike, hr, hc]

theorem orders_markCompleted_fail (s : LedgerState) (i : Nat)
    (h : (markCompleted s i).1 ≠ FulfillOutcome.ok) :
    (markCompleted s i).2.orders = s.orders := by
  rcases ho : (pendingOrders s.orders)[i]? with _ | order
  · simp [markCompleted, ho]
  · by_cases hv : (tlookup s.bikeInventory order.bike_model).getD 0 < 1
    · simp [markCompleted, ho, hv]
    · exact absurd (by simp [markCompleted, ho, hv]) h

theorem bookEvolves_markCompleted (s : LedgerState) (i : Nat) :
    bookEvolves s.orders (markCompleted s i).2.orders := by
  rcases ho : (pendingOrders s.orders)[i]? with _ | order
  · rw [orders_markCompleted_fail s i (by simp [markCompleted, ho])]
    exact bookEvolves_refl _
  · by_cases hv : (tlookup s.bikeInventory order.bike_model).getD 0 < 1
    · rw [orders_markCompleted_fail s i (by simp [markCompleted, ho, hv])]
      exact bookEvolves_refl _
    · have hor : (markCompleted s i).2.orders = completeNthPending s.orders i := by
        simp [markCompleted, ho, hv]
      rw [hor]
      obtain ⟨j, hj, heq⟩ := completeNthPending_spec ho
      rw [heq]
      exact bookEvolves_set hj (pending_status ho)

theorem bookEvolves_applyOp (s : LedgerState) (op : Op) :
    bookEvolves s.orders (applyOp s op).orders := by
  cases op with
  | addStock c n =>
    rw [applyOp, orders_replenishStock]
    exact bookEvolves_refl _
  | completeStation st =>
    rw [applyOp, orders_recordStationCompletion]
    exact bookEvolves_refl _
  | assemble m =>
    rw [applyOp, orders_assembleBike]
    exact bookEvolves_refl _
  | submit f => exact bookEvolves_append _ _
  | fulfill i => exact bookEvolves_markCompleted s i

/-- Claim C1: whenever `CompleteStation`, `Assemble` or `Fulfill` returns an
error (a warning reported to the user), the ledger state after the call is
identical, item for item, to the state before it. -/
theorem claim_C1_error_atomicity (s : LedgerState) (st model : String) (i : Nat) :
    ((recordStationCompletion s st).1.isError = true →
      (recordStationCompletion s st).2 = s) ∧
    ((assembleBike s model).1.isError = true → (assembleBike s model).2 = s) ∧
    ((markCompleted s i).1.isError = true → (markCompleted s i).2 = s) := by
  refine ⟨?_, ?_, ?_⟩
  · intro h
    rcases hc : checkStationReqs s.inventory s.production st
        ((tlookup STATION_REQUIREMENTS st).getD []) with _ | e
    · rcases hg : tlookup (deductStationReqs s.inventory s.production
          ((tlookup STATION_REQUIREMENTS st).getD [])).2 st with _ | c <;>
        simp [recordStationCompletion, hc, hg, StationOutcome.isError] at h
    · simp [recordStationCompletion, hc]
  · intro h
    rcases hr : tlookup BIKE_TYPE_PARTS model with _ | recipe
    · simp [assembleBike, hr]
    · rcases hc : checkParts s.inventory recipe with _ | e
      · rcases hg : tlookup s.bikeInventory model with _ | c <;>
          simp [assembleBike, hr, hc, hg, AssembleOutcome.isError] at h
      · simp [assembleBike, hr, hc]
  · intro h
    rcases hp : (pendingOrders s.orders)[i]? with _ | order
    · simp [markCompleted, hp, FulfillOutcome.isError] at h
    · by_cases hv : (tlookup s.bikeInventory order.bike_model).getD 0 < 1
      · simp [markCompleted, hp, hv]
      · simp [markCompleted, hp, hv, FulfillOutcome.isError] at h

/-- Witness for C1: after submitting a Tour order, a premature
`FrontForkAssembly` completion, an unknown-model assembly and a fulfillment
with no assembled Tour bike all fail and leave the state unchanged. -/
theorem claim_C1_witness :
    (recordStationCompletion (submitOrder initialState tourFields)
        "FrontForkAssembly").2 = submitOrder initialState tourFields ∧
    (assembleBike (submitOrder initialState tourFields) "Roadster").2 =
      submitOrder initialState tourFields ∧
    (markCompleted (submitOrder initialState tourFields) 0).2 =
      submitOrder initialState tourFields :=
  ⟨(claim_C1_error_atomicity (submitOrder initialState tourFields)
      "FrontForkAssembly" "Roadster" 0).1 (by decide),
   (claim_C1_error_atomicity (submitOrder initialState tourFields)
      "FrontForkAssembly" "Roadster" 0).2.1 (by decide),
   (claim_C1_error_atomicity (submitOrder initialState tourFields)
      "FrontForkAssembly" "Roadster" 0).2.2 (by decide)⟩

/-- Claim C2: in every state reachable from the initial configuration by any
sequence of AddStock, CompleteStation, Assemble, SubmitOrder and Fulfill
operations, every parts quantity, finished-bike quantity and station
completed-count is greater than or equal to 0. -/
theorem claim_C2_nonneg_invariant (s : LedgerState) (h : Reachable s) :
    stateNonneg s := by
  induction h with
  | init => decide
  | addStock s comp amount hr h1 h2 ih =>
    exact stateNonneg_replenishStock ih (by omega)
  | completeStation s st hr ih => exact stateNonneg_recordStationCompletion ih st
  | assemble s model hr ih => exact stateNonneg_assembleBike ih model
  | submit s f hr ih => exact ⟨ih.1, ih.2.1, ih.2.2⟩
  | fulfill s i hr ih => exact stateNonneg_markCompleted ih i

/-- Witness for C2: the initial configuration is reachable and every quantity
in it is nonnegative. -/
theorem claim_C2_witness : stateNonneg initialState :=
  claim_C2_nonneg_invariant initialState Reachable.init

/-- Claim C3 (Scenario A): from a parts ledger holding Tubular Steel=20,
Wheels=20, Seats=10, Gears=15, Brakes=15, Lights=10 and no finished Sport
bikes, `Assemble("Sport")` succeeds, the Sport finished count becomes 1, and
the parts ledger becomes 18, 18, 9, 14, 14, 9. -/
theorem claim_C3_assemble_sport :
    (assembleBike stateA "Sport").1 = AssembleOutcome.ok ∧
    (assembleBike stateA "Sport").2.bikeInventory = [("Sport", 1)] ∧
    (assembleBike stateA "Sport").2.inventory =
      [("Tubular Steel", 18), ("Wheels", 18), ("Seats", 9), ("Gears", 14),
       ("Brakes", 14), ("Lights", 9)] := by decide

/-- Claim C4: each station requirement is resolved against the parts ledger
first, then against the station completed-counts, failing with the
unknown-requirement error when absent from both; both the availability check
and the deduction use the dict chosen by this resolution order, and a check
failure is returned by `CompleteStation` with the state unchanged. -/
theorem claim_C4_resolution_order (inv prod : Dict) (st rkey : String)
    (amt : Int) (rest : List (String × Int)) :
    (∀ v, tlookup inv rkey = some v →
       checkStationReqs inv prod st ((rkey, amt) :: rest) =
         (if v < amt then some (StationOutcome.notEnoughInventory st rkey amt v)
          else checkStationReqs inv prod st rest) ∧
       deductStationReqs inv prod ((rkey, amt) :: rest) =
         deductStationReqs (dsub inv rkey amt) prod rest) ∧
    (tlookup inv rkey = none → ∀ w, tlookup prod rkey = some w →
       checkStationReqs inv prod st ((rkey, amt) :: rest) =
         (if w < amt then some (StationOutcome.notEnoughComponents st rkey amt w)
          else checkStationReqs inv prod st rest) ∧
       deductStationReqs inv prod ((rkey, amt) :: rest) =
         deductStationReqs inv (dsub prod rkey amt) rest) ∧
    (tlookup inv rkey = none → tlookup prod rkey = none →
       checkStationReqs inv prod st ((rkey, amt) :: rest) =
         some (StationOutcome.unknownRequirement rkey)) ∧
    (∀ (s : LedgerState) (e : StationOutcome),
       checkStationReqs s.inventory s.production st
           ((tlookup STATION_REQUIREMENTS st).getD []) = some e →
       recordStationCompletion s st = (e, s)) := by
  refine ⟨?_, ?_, ?_, ?_⟩
  · intro v hv
    exact ⟨by simp [checkStationReqs, hv], by simp [deductStationReqs, hv]⟩
  · intro hi w hw
    exact ⟨by simp [checkStationReqs, hi, hw], by simp [deductStationReqs, hi]⟩
  · intro hi hp
    simp [checkStationReqs, hi, hp]
  · intro s e he
    simp [recordStationCompletion, he]

/-- Witness for C4: concrete resolutions — a part short in the inventory, a
prior-station requirement checked and deducted from the production counts,
an id known to neither dict, and a failing `CompleteStation` call returning
the check error unchanged. -/
theorem claim_C4_witness :
    checkStationReqs [("Tubular Steel", (5 : Int))] [("FrameWelded", (2 : Int))]
        "X" [("Tubular Steel", 7)] =
      some (StationOutcome.notEnoughInventory "X" "Tubular Steel" 7 5) ∧
    checkStationReqs [("Tubular Steel", (5 : Int))] [("FrameWelded", (2 : Int))]
        "X" [("FrameWelded", 1)] = none ∧
    deductStationReqs [("Tubular Steel", (5 : Int))] [("FrameWelded", (2 : Int))]
        [("FrameWelded", 1)] =
      ([("Tubular Steel", (5 : Int))], [("FrameWelded", (1 : Int))]) ∧
    checkStationReqs [("Tubular Steel", (5 : Int))] [("FrameWelded", (2 : Int))]
        "X" [("Ghost", 1)] = some (StationOutcome.unknownRequirement "Ghost") ∧
    recordStationCompletion initialState "FrontForkAssembly" =
      (StationOutcome.notEnoughComponents "FrontForkAssembly" "FrameWelded" 1 0,
       initialState) := by
  refine ⟨?_, ?_, ?_, ?_, ?_⟩
  · rw [((claim_C4_resolution_order [("Tubular Steel", (5 : Int))]
      [("FrameWelded", (2 : Int))] "X" "Tubular Steel" 7 []).1 5 (by decide)).1]
    decide
  · rw [((claim_C4_resolution_order [("Tubular Steel", (5 : Int))]
      [("FrameWelded", (2 : Int))] "X" "FrameWelded" 1 []).2.1 (by decide) 2
      (by decide)).1]
    decide
  · rw [((claim_C4_resolution_order [("Tubular Steel", (5 : Int))]
      [("FrameWelded", (2 : Int))] "X" "FrameWelded" 1 []).2.1 (by decide) 2
      (by decide)).2]
    decide
  · exact (claim_C4_resolution_order [("Tubular Steel", (5 : Int))]
      [("FrameWelded", (2 : Int))] "X" "Ghost" 1 []).2.2.1 (by decide) (by decide)
  · exact (claim_C4_resolution_order initialState.inventory
      initialState.production "FrontForkAssembly" "x" 0 []).2.2.2 initialState
      (StationOutcome.notEnoughComponents "FrontForkAssembly" "FrameWelded" 1 0)
      (by decide)

/-- Counterexample to C5: `CompleteStation` on the unknown station id
`"PaintShop"` does not fail with a typed UnknownStation error — the lookup
defaults to an empty requirement set and the completed-count increment raises
an uncaught `KeyError` (the ledgers are indeed unchanged). -/
theorem claim_C5_counterexample :
    recordStationCompletion initialState "PaintShop" =
      (StationOutcome.keyError "PaintShop", initialState) := by decide

/-- Claim C5 as amended: for every station id absent from the requirement
table (and, as in every reachable state, absent from the production counts),
`CompleteStation` leaves all ledgers unchanged but raises an uncaught
`KeyError` instead of reporting an UnknownStation error. -/
theorem claim_C5_unknown_station (s : LedgerState) (st : String)
    (h1 : tlookup STATION_REQUIREMENTS st = none)
    (h2 : tlookup s.production st = none) :
    recordStationCompletion s st = (StationOutcome.keyError st, s) := by
  simp [recordStationCompletion, h1, checkStationReqs, deductStationReqs, h2]

/-- Witness for amended C5 at the unknown station id `"Ghost"`. -/
theorem claim_C5_witness :
    recordStationCompletion initialState "Ghost" =
      (StationOutcome.keyError "Ghost", initialState) :=
  claim_C5_unknown_station initialState "Ghost" (by decide) (by decide)

/-- Claim C6: for every currently Pending order, `Fulfill` fails with
no-bike-available and changes nothing when no finished bike of its model
exists, and otherwise decrements that model's finished count by exactly one
and sets exactly that order's status to Completed; in particular Scenario D —
submit a Tour order, assemble one Tour bike, fulfill — succeeds, leaving the
order Completed and the Tour finished count at 0. -/
theorem claim_C6_fulfill (s : LedgerState) (i : Nat) (order : Order)
    (h : (pendingOrders s.orders)[i]? = some order) :
    ((tlookup s.bikeInventory order.bike_model).getD 0 < 1 →
      markCompleted s i = (FulfillOutcome.noBikeAvailable order.bike_model, s)) ∧
    (1 ≤ (tlookup s.bikeInventory order.bike_model).getD 0 →
      (markCompleted s i).1 = FulfillOutcome.ok ∧
      tlookup (markCompleted s i).2.bikeInventory order.bike_model =
        some ((tlookup s.bikeInventory order.bike_model).getD 0 - 1) ∧
      (∀ m2, ¬ order.bike_model = m2 →
        tlookup (markCompleted s i).2.bikeInventory m2 =
          tlookup s.bikeInventory m2) ∧
      (∃ j, s.orders[j]? = some order ∧
        (markCompleted s i).2.orders = s.orders.set j (setCompleted order)) ∧
      (markCompleted s i).2.inventory = s.inventory ∧
      (markCompleted s i).2.production = s.production) ∧
    ((assembleBike (submitOrder initialState tourFields) "Tour").1 =
        AssembleOutcome.ok ∧
      (markCompleted stateD 0).1 = FulfillOutcome.ok ∧
      tlookup (markCompleted stateD 0).2.bikeInventory "Tour" = some 0 ∧
      (markCompleted stateD 0).2.orders = [setCompleted (mkOrder tourFields)]) := by
  refine ⟨?_, ?_, by decide, by decide, by decide, by decide⟩
  · intro hv
    simp [markCompleted, h, hv]
  · intro hv
    rcases hb : tlookup s.bikeInventory order.bike_model with _ | v
    · rw [hb] at hv
      simp at hv
    · rw [hb] at hv
      simp only [Option.getD_some] at hv
      have hnlt : ¬ ((tlookup s.bikeInventory order.bike_model).getD 0 < 1) := by
        rw [hb]
        simp only [Option.getD_some]
        omega
      have hds : dsub s.bikeInventory order.bike_model 1 =
          dset s.bikeInventory order.bike_model (v - 1) := by
        rw [dsub, hb]
      have hmc : markCompleted s i =
          (FulfillOutcome.ok,
           { s with bikeInventory := dset s.bikeInventory order.bike_model (v - 1),
                    orders := completeNthPending s.orders i }) := by
        rw [markCompleted, h]
        simp only [if_neg hnlt, hds]
      refine ⟨by rw [hmc], ?_, ?_, ?_, by rw [hmc], by rw [hmc]⟩
      · rw [hmc]
        exact tlookup_dset_self _ _ _
      · intro m2 hm2
        rw [hmc]
        exact tlookup_dset_ne hm2
      · obtain ⟨j, hj1, hj2⟩ := completeNthPending_spec h
        exact ⟨j, hj1, by rw [hmc, hj2]⟩

/-- Witness for C6: the successful Scenario D fulfillment, obtained by
instantiating the theorem at the concrete state after submitting a Tour order
and assembling one Tour bike. -/
theorem claim_C6_witness :
    (markCompleted stateD 0).1 = FulfillOutcome.ok ∧
    tlookup (markCompleted stateD 0).2.bikeInventory
        (mkOrder tourFields).bike_model =
      some ((tlookup stateD.bikeInventory (mkOrder tourFields).bike_model).getD 0
        - 1) := by
  have h := (claim_C6_fulfill stateD 0 (mkOrder tourFields) (by decide)).2.1
    (by decide)
  exact ⟨h.1, h.2.1⟩

/-- Counterexample to C7: with an empty order book, `Fulfill` on reference 0
resolves no Pending order, yet it does not fail with an OrderNotFound error —
it silently does nothing. -/
theorem claim_C7_counterexample :
    markCompleted initialState 0 = (FulfillOutcome.silentNoop, initialState) := by
  decide

/-- Claim C7 as amended: for every order reference that does not resolve to a
currently Pending order, `Fulfill` is a silent no-op — it reports no error
(no OrderNotFound error exists in the handler) and changes nothing. -/
theorem claim_C7_silent_noop (s : LedgerState) (i : Nat)
    (h : (pendingOrders s.orders)[i]? = none) :
    markCompleted s i = (FulfillOutcome.silentNoop, s) := by
  simp [markCompleted, h]

/-- Witness for amended C7 at the out-of-range reference 3. -/
theorem claim_C7_witness :
    markCompleted initialState 3 = (FulfillOutcome.silentNoop, initialState) :=
  claim_C7_silent_noop initialState 3 (by decide)

/-- Counterexample to C8: submitting the form with all three required
free-text fields empty still appends one Pending order — no ValidationError
path exists. -/
theorem claim_C8_counterexample :
    emptyFields.customer_name = "" ∧
    (submitOrder initialState emptyFields).orders = [mkOrder emptyFields] ∧
    (mkOrder emptyFields).status = "Pending" :=
  ⟨rfl, rfl, rfl⟩

/-- Claim C8 as amended: `SubmitOrder` unconditionally appends exactly one new
order with status Pending and touches no other ledger; required fields are
never validated, so an empty field does not prevent the append. -/
theorem claim_C8_always_appends (s : LedgerState) (f : OrderFields) :
    (submitOrder s f).orders = s.orders ++ [mkOrder f] ∧
    (mkOrder f).status = "Pending" ∧
    (submitOrder s f).inventory = s.inventory ∧
    (submitOrder s f).bikeInventory = s.bikeInventory ∧
    (submitOrder s f).production = s.production :=
  ⟨rfl, rfl, rfl, rfl, rfl⟩

/-- Claim C9: over every operation sequence the order book only evolves by
keeping every existing order at its position — with at most the one-way
Pending→Completed status change — and growing at the end; moreover only
`SubmitOrder` (an append) and a successful `Fulfill` touch it at all, and a
Completed order stays Completed forever. -/
theorem claim_C9_orderbook_temporal (s : LedgerState) (ops : List Op) (i : Nat)
    (c st m : String) (n : Int) (f : OrderFields) :
    bookEvolves s.orders (applyOps s ops).orders ∧
    (replenishStock s c n).2.orders = s.orders ∧
    (recordStationCompletion s st).2.orders = s.orders ∧
    (assembleBike s m).2.orders = s.orders ∧
    (submitOrder s f).orders = s.orders ++ [mkOrder f] ∧
    ((markCompleted s i).1 ≠ FulfillOutcome.ok →
      (markCompleted s i).2.orders = s.orders) := by
  refine ⟨?_, orders_replenishStock s c n, orders_recordStationCompletion s st,
    orders_assembleBike s m, rfl, orders_markCompleted_fail s i⟩
  induction ops generalizing s with
  | nil => exact bookEvolves_refl _
  | cons op rest ih =>
    exact bookEvolves_trans (bookEvolves_applyOp s op) (ih (applyOp s op))

/-- Witness for C9: a failing fulfillment on the initial (empty) order book
leaves the order book unchanged. -/
theorem claim_C9_witness :
    (markCompleted initialState 0).2.orders = initialState.orders := by
  have h := claim_C9_orderbook_temporal initialState [] 0 "Wheels" "FrameWelded"
    "Sport" 1 tourFields
  exact h.2.2.2.2.2 (by decide)

/-- Claim C10: for every state of the user database and either answer to the
confirmation dialog, deleting username "admin" is rejected (user-not-found or
cannot-delete-admin) and the database is unchanged. -/
theorem claim_C10_admin_undeletable (db : UserDb) (c : Bool) :
    (deleteUser db "admin" c).2 = db ∧
    ((deleteUser db "admin" c).1 = DeleteOutcome.userNotFound "admin" ∨
     (deleteUser db "admin" c).1 = DeleteOutcome.cannotDeleteAdmin) := by
  unfold deleteUser
  rcases h : tlookup db "admin" with _ | v <;> simp
